import Mathlib

/-!
Verification of the structmap decode engine (src/structmap.go) and the
indirection helper internal.SetValue (the internal package).

The embedding models the Go data reachable by `Decoder.Decode`:

* `GoType` mirrors the reflect types the engine dispatches on: the scalar
  kinds used by the tests (string, int, bool), the two map shapes needed to
  observe the assignment path (map[string]interface\x7b\x7d and
  map[string]string), pointers of arbitrary depth, and struct types with
  their declared field lists.
* `GoValue` mirrors reflect values: a nil pointer is `ptrV et none`,
  a nil interface\x7b\x7d is `Option.none` at the use sites.
* A target struct during one decode call is a `List FieldSt`, one entry per
  declared field carrying its name, tag, declared type, embedded flag and
  current value.  This stands for the field list produced by `NewStruct`
  together with the in-place mutation the engine performs through the
  write handle; `Fields()`, `IsEmbedded()` and `IsZero()` of the record
  model are not under src/ and are taken at their documented meaning
  (section 4.1 of the specification): declaration order, the anonymous
  flag, and nil-ness of a pointer field.
* `Decode` is fuel-indexed; the fuel only bounds the recursion into nested
  structs, which in Go is bounded by the static nesting depth of the
  target type.  Every theorem either supplies ample fuel or holds for all
  fuel values.

Outcomes carry the (partially mutated) target state, mirroring that the Go
engine mutates the target in place and an error return leaves the
mutations already performed visible to the caller.  A Go panic is the
`panicked` outcome; the `defer`/`recover` block at the top of `Decode`
(lines 39-45) is `recoverWrap`, applied by every `decode` invocation.
-/

namespace Structmap

mutual
/-- Go types reachable by the decode engine in this development. -/
inductive GoType : Type where
  | str
  | int
  | bool
  | mapSI
  | mapSS
  | ptr (elem : GoType)
  | strct (fields : FieldDecls)
  deriving DecidableEq
/-- Declared field list of a struct type: name, tag, type, anonymous flag. -/
inductive FieldDecls : Type where
  | fnil
  | fcons (name tag : String) (ty : GoType) (embedded : Bool) (rest : FieldDecls)
  deriving DecidableEq
end

mutual
/-- Go values: `ptrV et none` is a typed nil pointer, `mapV` is a
map[string]interface\x7b\x7d whose entries may hold nil interfaces,
`mapSSV` is a map[string]string, `structV` is a struct value given by its
field states. -/
inductive GoValue : Type where
  | strV (s : String)
  | intV (n : Int)
  | boolV (b : Bool)
  | mapSSV (entries : List (String × String))
  | ptrV (elem : GoType) (content : Option GoValue)
  | mapV (entries : List (String × Option GoValue))
  | structV (fields : List FieldSt)
/-- One field of a target struct during a decode call: declared name, tag,
declared type, embedded (anonymous) flag, and current value. -/
inductive FieldSt : Type where
  | mk (name tag : String) (ty : GoType) (embedded : Bool) (val : GoValue)
end

/-- A SourceMapping: map[string]interface\x7b\x7d, entries may hold nil. -/
abbrev Entries := List (String × Option GoValue)

def FieldSt.name : FieldSt → String
  | .mk n _ _ _ _ => n

def FieldSt.tag : FieldSt → String
  | .mk _ tg _ _ _ => tg

def FieldSt.ty : FieldSt → GoType
  | .mk _ _ ty _ _ => ty

def FieldSt.embedded : FieldSt → Bool
  | .mk _ _ _ emb _ => emb

def FieldSt.val : FieldSt → GoValue
  | .mk _ _ _ _ v => v

/-- Replace the stored value of a field, keeping its declaration. -/
def FieldSt.withVal : FieldSt → GoValue → FieldSt
  | .mk n tg ty emb _, v => .mk n tg ty emb v

/-- Declarations of a field-state list, used as the type of a struct value. -/
def declsOf : List FieldSt → FieldDecls
  | [] => .fnil
  | fld :: rest => .fcons fld.name fld.tag fld.ty fld.embedded (declsOf rest)

/-- Kinds as used by reflect.Kind comparisons in the engine. -/
inductive GoKind : Type where
  | kstr
  | kint
  | kbool
  | kmap
  | kptr
  | kstruct
  deriving DecidableEq

def GoType.kind : GoType → GoKind
  | .str => .kstr
  | .int => .kint
  | .bool => .kbool
  | .mapSI => .kmap
  | .mapSS => .kmap
  | .ptr _ => .kptr
  | .strct _ => .kstruct

/-- Static type of a value (reflect.Value.Type). -/
def GoValue.typeOf : GoValue → GoType
  | .strV _ => .str
  | .intV _ => .int
  | .boolV _ => .bool
  | .mapSSV _ => .mapSS
  | .ptrV et _ => .ptr et
  | .mapV _ => .mapSI
  | .structV fs => .strct (declsOf fs)

mutual
/-- Zero value of a type (reflect.New(t).Elem()): empty scalars, nil
pointers, nil maps (conflated with the empty map, which the engine never
distinguishes), and structs of zero fields. -/
def zeroValue : GoType → GoValue
  | .str => .strV ""
  | .int => .intV 0
  | .bool => .boolV false
  | .mapSI => .mapV []
  | .mapSS => .mapSSV []
  | .ptr t => .ptrV t none
  | .strct ds => .structV (zeroStruct ds)
/-- Zero field states for a declaration list. -/
def zeroStruct : FieldDecls → List FieldSt
  | .fnil => []
  | .fcons n tg ty emb rest => .mk n tg ty emb (zeroValue ty) :: zeroStruct rest
end

/-- Printed form of a type, used inside the engine error messages. -/
def typeName : GoType → String
  | .str => "string"
  | .int => "int"
  | .bool => "bool"
  | .mapSI => "map[string]interface \x7b\x7d"
  | .mapSS => "map[string]string"
  | .ptr t => "*" ++ typeName t
  | .strct _ => "struct"

/-- FieldPart (structmap.go lines 10-16): the mutable per-field descriptor
threaded through the mutation pipeline.  `value = none` is the nil
interface\x7b\x7d. -/
structure FieldPart where
  name : String
  value : Option GoValue
  ty : GoType
  tag : String
  skip : Bool

/-- Result of one MutationFunc: normal return of the mutated descriptor,
an error return, or a Go panic raised inside the step. -/
inductive MutRes : Type where
  | ok (fp : FieldPart)
  | fail (msg : String)
  | panicM (msg : String)

/-- MutationFunc (structmap.go line 19). -/
def MutationFunc := FieldPart → MutRes

/-- Fresh descriptor for a field (structmap.go lines 53-56): tag and type
seeded from the field, name empty, value the nil interface, skip unset. -/
def initFieldPart (fld : FieldSt) : FieldPart :=
  { name := "", value := none, ty := fld.ty, tag := fld.tag, skip := false }

/-- Map lookup `from[key]` with the ok flag: `some v` when the key is
present (v may itself be the nil interface), `none` when absent. -/
def lookupEntry : Entries → String → Option (Option GoValue)
  | [], _ => none
  | (k, v) :: rest, key => if k = key then some v else lookupEntry rest key

/-- Steps run after the first mutation returns (structmap.go lines 65-73):
fall back to the declared field name when the step left Name empty, then
fetch Value from the mapping under the resolved name when present. -/
def afterFirstStep (frm : Entries) (fieldName : String) (fp : FieldPart) : FieldPart :=
  let fp1 := if fp.name = "" then { fp with name := fieldName } else fp
  match lookupEntry frm fp1.name with
  | some v => { fp1 with value := v }
  | none => fp1

/-- Outcome of running the pipeline over one descriptor. -/
inductive PipeRes : Type where
  | ok (fp : FieldPart)
  | fail (msg : String)
  | panicked (msg : String)

/-- Mutations after the first one (structmap.go lines 59-63 for i > 0). -/
def runRest : List MutationFunc → FieldPart → PipeRes
  | [], fp => .ok fp
  | m :: rest, fp =>
    match m fp with
    | .ok fp1 => runRest rest fp1
    | .fail e => .fail e
    | .panicM e => .panicked e

/-- Full pipeline loop (structmap.go lines 59-74).  The second component
counts accesses to the SourceMapping: the lookup at line 70 runs exactly
when the first mutation returned normally, hence at most once per field
and never when the pipeline is empty. -/
def runPipeline (muts : List MutationFunc) (frm : Entries) (fieldName : String)
    (fp0 : FieldPart) : PipeRes × Nat :=
  match muts with
  | [] => (.ok fp0, 0)
  | m :: rest =>
    match m fp0 with
    | .ok fp1 => (runRest rest (afterFirstStep frm fieldName fp1), 1)
    | .fail e => (.fail e, 0)
    | .panicM e => (.panicked e, 0)

/-- Error text of structmap.go line 95 (apostrophe elided), naming the
resolved field name. -/
def embedErrMsg (nm : String) : String :=
  "field " ++ nm ++ " cannot is a embedded struct, will expect that value is a map[string]interface \x7b\x7d"

/-- Error text of structmap.go line 130, naming the declared field name,
the source type and the destination type. -/
def mismatchMsg (fieldName : String) (src dst : GoType) : String :=
  "field " ++ fieldName ++ " value of type " ++ typeName src ++ " is not assignable to type " ++ typeName dst

/-- Panic message raised by reflect.Value.Set when the assigned type is
not assignable to the slot type. -/
def setPanicMsg (src dst : GoType) : String :=
  "reflect.Set: value of type " ++ typeName src ++ " is not assignable to type " ++ typeName dst

/-- Lines 103-113: reflect.ValueOf(fp.Value), one `Elem()` when the value
is a pointer, and the Invalid check.  `none` means Invalid: nil interface,
or nil pointer inside the interface. -/
def resolveOnce : Option GoValue → Option GoValue
  | none => none
  | some (.ptrV _ none) => none
  | some (.ptrV _ (some w)) => some w
  | some v => some v

/-- Lines 117-121: when the field is a nil pointer, allocate its element
(one layer only); otherwise the field value is left as is. -/
def fieldAfterAlloc : GoValue → GoValue
  | .ptrV et none => .ptrV et (some (zeroValue et))
  | v => v

/-- Lines 117-123: the destination type after stripping one pointer layer
from the field (fieldValue.Type() after the possible Elem()). -/
def fieldElemTy : GoValue → GoType
  | .ptrV et _ => et
  | v => v.typeOf

/-- Go convertibility between the modelled types: identical types, plus
the int-to-string rune conversion that reflect admits. -/
def convertibleTo (src dst : GoType) : Bool :=
  decide (src = dst) || (decide (src = GoType.int) && decide (dst = GoType.str))

/-- Go string(int) conversion: the rune for a valid code point, otherwise
the replacement character U+FFFD. -/
def goStringOfInt (n : Int) : String :=
  if 0 ≤ n ∧ (n < 55296 ∨ (57343 < n ∧ n ≤ 1114111)) then
    String.mk [Char.ofNat n.toNat]
  else
    "�"

/-- reflect.Value.Convert for the convertible pairs of this model. -/
def convertVal (v : GoValue) (dst : GoType) : GoValue :=
  match v, dst with
  | .intV n, .str => .strV (goStringOfInt n)
  | _, _ => v

/-- Lines 125-127: convert when convertible, otherwise keep the value. -/
def convertAttempt (v : GoValue) (dst : GoType) : GoValue :=
  if convertibleTo v.typeOf dst then convertVal v dst else v

/-- Lines 133-137: write the value into the field, through the single
pointer layer when the field is a pointer. -/
def assignInto (fieldValAfter : GoValue) (v : GoValue) : GoValue :=
  match fieldValAfter with
  | .ptrV et _ => .ptrV et (some v)
  | _ => v

/-- Outcome of the scalar/collection branch for one field. -/
inductive ScalarRes : Type where
  | skipped
  | assigned (newVal : GoValue)
  | failS (msg : String) (valAfter : GoValue)
  | panicS (msg : String) (valAfter : GoValue)

/-- Scalar/collection branch (structmap.go lines 102-137): resolve the
descriptor value (skip when invalid), allocate one pointer layer of the
field when nil, attempt the conversion, compare kinds, then assign; the
reflective Set panics when the kinds agree but the types are still not
assignable. -/
def scalarStep (fieldName : String) (fieldVal : GoValue) (fpValue : Option GoValue) : ScalarRes :=
  match resolveOnce fpValue with
  | none => .skipped
  | some v =>
    let fv := fieldAfterAlloc fieldVal
    let dstTy := fieldElemTy fieldVal
    let v1 := convertAttempt v dstTy
    if v1.typeOf.kind ≠ dstTy.kind then .failS (mismatchMsg fieldName v1.typeOf dstTy) fv
    else if v1.typeOf ≠ dstTy then .panicS (setPanicMsg v1.typeOf dstTy) fv
    else .assigned (assignInto fv v1)

/-- Field states of a struct value; empty on non-struct junk input. -/
def structFieldsOf : GoValue → List FieldSt
  | .structV fs => fs
  | _ => []

/-- Lines 80-88 of the aggregate branch: allocate a zero struct when the
field is a nil pointer to struct; return the field value after the
possible allocation together with the field states the nested decode will
write through. -/
def aggPrep : GoValue → GoValue × List FieldSt
  | .ptrV et none => (.ptrV et (some (zeroValue et)), structFieldsOf (zeroValue et))
  | .ptrV et (some w) => (.ptrV et (some w), structFieldsOf w)
  | w => (w, structFieldsOf w)

/-- Rebuild the field value from the nested decode result, mirroring that
the nested call wrote through the pointer or the address of the field. -/
def aggRebuild (afterAlloc : GoValue) (sub : List FieldSt) : GoValue :=
  match afterAlloc with
  | .ptrV et _ => .ptrV et (some (.structV sub))
  | _ => .structV sub

/-- Line 80: struct fields and pointer-to-struct fields take the
aggregate branch; deeper pointers to structs do not. -/
def isAggTy : GoType → Bool
  | .strct _ => true
  | .ptr (.strct _) => true
  | _ => false

/-- Line 94: the type assertion fp.Value.(map[string]interface\x7b\x7d). -/
def asMapping : Option GoValue → Option Entries
  | some (.mapV m) => some m
  | _ => none

/-- Decode outcome, carrying the target state (the engine mutates the
target in place, so an error or panic still leaves the mutations already
performed). -/
inductive DOut : Type where
  | ok (st : List FieldSt)
  | fail (msg : String) (st : List FieldSt)
  | panicked (msg : String) (st : List FieldSt)

/-- Prepend a finished field onto the state of an outcome. -/
def DOut.push (fld : FieldSt) : DOut → DOut
  | .ok st => .ok (fld :: st)
  | .fail e st => .fail e (fld :: st)
  | .panicked e st => .panicked e (fld :: st)

def DOut.isPanicked : DOut → Bool
  | .panicked _ _ => true
  | _ => false

/-- Lines 39-45: the deferred recover of one Decode call: a panic that
reaches the frame while no error is set becomes fmt.Errorf of the panic
value; normal returns pass through. -/
def recoverWrap : DOut → DOut
  | .panicked m st => .fail m st
  | o => o

/-- Field loop of Decode (lines 52-139), parametric in the recursive call
used for nested structs (line 99): run the pipeline, honour Skip, then
dispatch on the declared type into the aggregate branch (lines 80-101) or
the scalar branch (lines 102-137). -/
def decodeFieldsAux (recur : Entries → List FieldSt → DOut)
    (muts : List MutationFunc) (frm : Entries) : List FieldSt → DOut
  | [] => .ok []
  | fld :: rest =>
    match (runPipeline muts frm fld.name (initFieldPart fld)).1 with
    | .fail e => .fail e (fld :: rest)
    | .panicked e => .panicked e (fld :: rest)
    | .ok fp =>
      if fp.skip then DOut.push fld (decodeFieldsAux recur muts frm rest)
      else if isAggTy fld.ty then
        let pv := aggPrep fld.val
        match (if fld.embedded then some frm else asMapping fp.value) with
        | none => .fail (embedErrMsg fp.name) (fld.withVal pv.1 :: rest)
        | some structFrom =>
          match recur structFrom pv.2 with
          | .ok sub => DOut.push (fld.withVal (aggRebuild pv.1 sub)) (decodeFieldsAux recur muts frm rest)
          | .fail e sub => .fail e (fld.withVal (aggRebuild pv.1 sub) :: rest)
          | .panicked e sub => .panicked e (fld.withVal (aggRebuild pv.1 sub) :: rest)
      else
        match scalarStep fld.name fld.val fp.value with
        | .skipped => DOut.push fld (decodeFieldsAux recur muts frm rest)
        | .assigned nv => DOut.push (fld.withVal nv) (decodeFieldsAux recur muts frm rest)
        | .failS e va => .fail e (fld.withVal va :: rest)
        | .panicS e va => .panicked e (fld.withVal va :: rest)

/-- Decoder.Decode (lines 38-142), fuel-indexed: every call, nested ones
included, wraps its body in the deferred recover.  The fuel bounds only
the nesting recursion; in Go it is bounded by the static type depth. -/
def decode (muts : List MutationFunc) : Nat → Entries → List FieldSt → DOut
  | 0, _, st => .fail "structmap: recursion fuel exhausted" st
  | n + 1, frm, st => recoverWrap (decodeFieldsAux (decode muts n) muts frm st)

/-- Decoder (lines 22-24): the ordered mutation pipeline. -/
structure Decoder where
  mutations : List MutationFunc

/-- NewDecoder (lines 28-30). -/
def NewDecoder : Decoder := ⟨[]⟩

/-- AddMutation (lines 33-35). -/
def AddMutation (d : Decoder) (m : MutationFunc) : Decoder :=
  ⟨d.mutations ++ [m]⟩

/-- Public entry point: Decode reads only the mutation list of the
decoder. -/
def Decode (d : Decoder) (fuel : Nat) (frm : Entries) (tgt : List FieldSt) : DOut :=
  decode d.mutations fuel frm tgt

/-- internal.SetValue (internal package, lines 26-34): allocate through
every pointer layer of the target type and set the innermost slot.  The
result is the value stored in the target slot. -/
def SetValue (targetTy : GoType) (value : GoValue) : GoValue :=
  match targetTy with
  | .ptr et => .ptrV et (some (SetValue et value))
  | _ => value

/-- Pointer type with n layers of indirection over a base type. -/
def ptrN : Nat → GoType → GoType
  | 0, t => t
  | k + 1, t => .ptr (ptrN k t)

/-- Dereference k pointer layers; `none` when a nil pointer or a
non-pointer is hit early. -/
def derefLayers : Nat → GoValue → Option GoValue
  | 0, v => some v
  | k + 1, .ptrV _ (some w) => derefLayers k w
  | _ + 1, _ => none

/-- Identity mutation, standing for the trivial naming step (name.Noop in
the test suite): the first pipeline step that leaves the descriptor
untouched, so the engine falls back to the declared field name. -/
def noopMut : MutationFunc := fun fp => .ok fp

/-- Mutation that raises a Go panic exactly on descriptors whose tag is
"boom", leaving every other field alone. -/
def boomMut : MutationFunc := fun fp => if fp.tag = "boom" then .panicM "boom" else .ok fp

/-- Every top-level field of the target has a scalar/collection type. -/
def allScalar (st : List FieldSt) : Bool :=
  st.all fun f => !isAggTy f.ty

/-- Some top-level field of the target is a non-embedded aggregate. -/
def hasNonEmbAgg (st : List FieldSt) : Bool :=
  st.any fun f => isAggTy f.ty && !f.embedded

example : zeroValue (.ptr .str) = .ptrV .str none := rfl

example : typeName (.ptr (.ptr .str)) = "**string" := rfl

example :
    Decode ⟨[noopMut]⟩ 1 [("A", some (.strV "B"))] [.mk "A" "" .str false (.strV "")]
      = .ok [.mk "A" "" .str false (.strV "B")] := rfl

/-! Shared lemmas. -/

/-- Every decode invocation, nested or top-level, ends in the deferred
recover, so no invocation ever lets a panic escape. -/
theorem decode_not_panicked (muts : List MutationFunc) (n : Nat) (frm : Entries)
    (st : List FieldSt) : (decode muts n frm st).isPanicked = false := by
  cases n with
  | zero => rfl
  | succ n =>
    show (recoverWrap (decodeFieldsAux (decode muts n) muts frm st)).isPanicked = false
    cases decodeFieldsAux (decode muts n) muts frm st <;> rfl

/-- Shared lemma: a non-embedded aggregate field that survives the
pipeline, whose descriptor value is not a mapping, fails with the error
of line 95 after the allocation step of lines 83-88 already ran. -/
theorem agg_not_mapping_fail (n : Nat) (muts : List MutationFunc)
    (frm : Entries) (fld : FieldSt) (rest : List FieldSt) (fp : FieldPart)
    (hp : (runPipeline muts frm fld.name (initFieldPart fld)).1 = .ok fp)
    (hs : fp.skip = false)
    (hagg : isAggTy fld.ty = true)
    (hemb : fld.embedded = false)
    (hmap : asMapping fp.value = none) :
    decodeFieldsAux (decode muts n) muts frm (fld :: rest)
      = .fail (embedErrMsg fp.name) (fld.withVal (aggPrep fld.val).1 :: rest)
  ∧ Decode ⟨muts⟩ (n + 1) frm (fld :: rest)
      = .fail (embedErrMsg fp.name) (fld.withVal (aggPrep fld.val).1 :: rest) := by
  have h1 : decodeFieldsAux (decode muts n) muts frm (fld :: rest)
      = .fail (embedErrMsg fp.name) (fld.withVal (aggPrep fld.val).1 :: rest) := by
    simp [decodeFieldsAux, hp, hs, hagg, hemb, hmap]
  exact ⟨h1, by simp [Decode, decode, h1, recoverWrap]⟩

/-- SetValue allocates through all n pointer layers and stores the value
at the bottom: dereferencing n layers of the result yields the value,
for every depth n and every non-pointer base type. -/
theorem SetValue_depth (n : Nat) (t : GoType) (v : GoValue)
    (h : t.kind ≠ GoKind.kptr) :
    derefLayers n (SetValue (ptrN n t) v) = some v := by
  induction n with
  | zero =>
    cases t <;> simp [SetValue, ptrN, derefLayers]
    · exact absurd rfl h
  | succ n ih =>
    simpa [ptrN, SetValue, derefLayers] using ih

/-! Claim theorems. -/

/-- C1: the claim asks Decode to assign a scalar through three layers of
pointer indirection.  The scalar branch of Decode (lines 102-137) unwraps
only a single pointer layer of the field and never calls
internal.SetValue, so on the field `A : three-pointers-to-string` with
input value "A" it allocates one layer and then fails with the
type-mismatch error, instead of materialising all three layers; the
helper internal.SetValue on its own does satisfy the depth-3 property. -/
theorem C1_depth3_decode_fails :
    Decode ⟨[noopMut]⟩ 1 [("A", some (.strV "A"))]
        [.mk "A" "" (.ptr (.ptr (.ptr .str))) false (.ptrV (.ptr (.ptr .str)) none)]
      = .fail (mismatchMsg "A" .str (.ptr (.ptr .str)))
          [.mk "A" "" (.ptr (.ptr (.ptr .str))) false
            (.ptrV (.ptr (.ptr .str)) (some (.ptrV (.ptr .str) none)))]
  ∧ derefLayers 3 (SetValue (.ptr (.ptr (.ptr .str))) (.strV "A")) = some (.strV "A") :=
  ⟨rfl, rfl⟩

/-- C2: a scalar field whose resolved descriptor value is absent or
structurally invalid (nil interface, or a nil pointer inside the
interface, in particular when the key is missing from the mapping) is
silently skipped: the field state is returned exactly as it was, nothing
is allocated through its indirection, and processing continues with the
remaining fields without an error contribution from this field. -/
theorem C2_absent_scalar_untouched (n : Nat) (muts : List MutationFunc) (frm : Entries)
    (fld : FieldSt) (rest : List FieldSt) (fp : FieldPart)
    (hp : (runPipeline muts frm fld.name (initFieldPart fld)).1 = .ok fp)
    (hs : fp.skip = false)
    (hagg : isAggTy fld.ty = false)
    (hres : resolveOnce fp.value = none) :
    decodeFieldsAux (decode muts n) muts frm (fld :: rest)
      = DOut.push fld (decodeFieldsAux (decode muts n) muts frm rest) := by
  simp [decodeFieldsAux, hp, hs, hagg, scalarStep, hres]

/-- Witness for C2, the P1 scenario: field Name holds "preset", the
mapping has no Name key, the field keeps "preset" and decode succeeds. -/
theorem C2_witness :
    decodeFieldsAux (decode [noopMut] 0) [noopMut] [("Other", some (.strV "x"))]
        [.mk "Name" "" .str false (.strV "preset")]
      = DOut.push (.mk "Name" "" .str false (.strV "preset"))
          (decodeFieldsAux (decode [noopMut] 0) [noopMut] [("Other", some (.strV "x"))] [])
  ∧ Decode ⟨[noopMut]⟩ 1 [("Other", some (.strV "x"))]
        [.mk "Name" "" .str false (.strV "preset")]
      = .ok [.mk "Name" "" .str false (.strV "preset")] :=
  ⟨C2_absent_scalar_untouched 0 [noopMut] [("Other", some (.strV "x"))]
      (.mk "Name" "" .str false (.strV "preset")) []
      { name := "Name", value := none, ty := .str, tag := "", skip := false }
      rfl rfl rfl rfl,
    rfl⟩

/-- C3 counterexample: the claim says nested recursive Decode calls do
not themselves catch faults and a nested fault is converted only by the
top-level recover.  In the code the deferred recover (lines 39-45) is
installed by every Decode call.  Concretely: the very invocation the
outer frame makes at line 99 (fuel 1, the inner single-field struct whose
mutation panics) already returns an ordinary error, not an escaping
panic, and the outer call then merely propagates that error unchanged. -/
theorem C3_counterexample :
    decode [boomMut] 1 [] [.mk "X" "boom" .str false (.strV "")]
      = .fail "boom" [.mk "X" "boom" .str false (.strV "")]
  ∧ Decode ⟨[boomMut]⟩ 2 []
        [.mk "Sub" "" (.strct (.fcons "X" "boom" .str false .fnil)) true
          (.structV [.mk "X" "boom" .str false (.strV "")])]
      = .fail "boom"
          [.mk "Sub" "" (.strct (.fcons "X" "boom" .str false .fnil)) true
            (.structV [.mk "X" "boom" .str false (.strV "")])] :=
  ⟨rfl, rfl⟩

/-- C3 amended: the deferred recover is installed by every Decode
invocation, nested recursive calls included, so no invocation at any
depth ever surfaces a panic: each converts a fault into an ordinary error
itself, and outer frames propagate that error unchanged through the
nested-error check of lines 99-101. -/
theorem C3_every_call_recovers (d : Decoder) (fuel : Nat) (frm : Entries)
    (st : List FieldSt) :
    (Decode d fuel frm st).isPanicked = false :=
  decode_not_panicked d.mutations fuel frm st

/-- C5: a non-embedded aggregate field (struct or pointer-to-struct)
that survives the pipeline without Skip, whose descriptor value is not a
map[string]interface\x7b\x7d, makes Decode fail hard with the error of
line 95 naming the resolved field name; the same error is the result of
the whole Decode call, never a silent skip. -/
theorem C5_nonembedded_requires_mapping (n : Nat) (muts : List MutationFunc)
    (frm : Entries) (fld : FieldSt) (rest : List FieldSt) (fp : FieldPart)
    (hp : (runPipeline muts frm fld.name (initFieldPart fld)).1 = .ok fp)
    (hs : fp.skip = false)
    (hagg : isAggTy fld.ty = true)
    (hemb : fld.embedded = false)
    (hmap : asMapping fp.value = none) :
    decodeFieldsAux (decode muts n) muts frm (fld :: rest)
      = .fail (embedErrMsg fp.name) (fld.withVal (aggPrep fld.val).1 :: rest)
  ∧ Decode ⟨muts⟩ (n + 1) frm (fld :: rest)
      = .fail (embedErrMsg fp.name) (fld.withVal (aggPrep fld.val).1 :: rest) :=
  agg_not_mapping_fail n muts frm fld rest fp hp hs hagg hemb hmap

/-- Witness for C5, the P4 scenario: named field MyAddress of struct
type, input value "not-a-map", decode fails with the error naming
MyAddress. -/
theorem C5_witness :
    Decode ⟨[noopMut]⟩ 1 [("MyAddress", some (.strV "not-a-map"))]
        [.mk "MyAddress" "" (.strct (.fcons "Address" "" .str false .fnil)) false
          (.structV [.mk "Address" "" .str false (.strV "")])]
      = .fail (embedErrMsg "MyAddress")
          [.mk "MyAddress" "" (.strct (.fcons "Address" "" .str false .fnil)) false
            (.structV [.mk "Address" "" .str false (.strV "")])] :=
  (C5_nonembedded_requires_mapping 0 [noopMut] [("MyAddress", some (.strV "not-a-map"))]
      (.mk "MyAddress" "" (.strct (.fcons "Address" "" .str false .fnil)) false
        (.structV [.mk "Address" "" .str false (.strV "")]))
      []
      { name := "MyAddress", value := some (.strV "not-a-map"),
        ty := .strct (.fcons "Address" "" .str false .fnil), tag := "", skip := false }
      rfl rfl rfl rfl rfl).2

/-- C6 counterexample: field Headers of type map[string]string, input
value of type map[string]interface\x7b\x7d.  No convertible relationship
exists and the kinds coincide, so by the claim the value should be
assigned; instead the reflective Set panics, the panic is recovered, and
Decode returns an internal-fault error while the field keeps its old
value. -/
theorem C6_counterexample :
    Decode ⟨[noopMut]⟩ 1 [("Headers", some (.mapV []))]
        [.mk "Headers" "" .mapSS false (.mapSSV [])]
      = .fail (setPanicMsg .mapSI .mapSS) [.mk "Headers" "" .mapSS false (.mapSSV [])] :=
  rfl

/-- C10: a non-embedded pointer-to-struct field that was nil is
allocated (lines 83-85) before the mapping-shape check of lines 92-96,
so when the descriptor value is not a mapping the call fails AND the
failing field has already been set to a pointer to a freshly zeroed
struct: the error return does not leave the field unchanged. -/
theorem C10_ptr_struct_alloc_before_error (n : Nat) (muts : List MutationFunc)
    (frm : Entries) (nm tg : String) (ds : FieldDecls) (rest : List FieldSt)
    (fp : FieldPart)
    (hp : (runPipeline muts frm nm
            (initFieldPart (.mk nm tg (.ptr (.strct ds)) false (.ptrV (.strct ds) none)))).1
          = .ok fp)
    (hs : fp.skip = false)
    (hmap : asMapping fp.value = none) :
    Decode ⟨muts⟩ (n + 1) frm (.mk nm tg (.ptr (.strct ds)) false (.ptrV (.strct ds) none) :: rest)
      = .fail (embedErrMsg fp.name)
          (.mk nm tg (.ptr (.strct ds)) false
            (.ptrV (.strct ds) (some (.structV (zeroStruct ds)))) :: rest) := by
  have h1 := (agg_not_mapping_fail n muts frm
      (.mk nm tg (.ptr (.strct ds)) false (.ptrV (.strct ds) none)) rest fp
      (by simpa [FieldSt.name] using hp) hs rfl rfl hmap).2
  simpa [aggPrep, zeroValue, FieldSt.withVal] using h1

/-- Witness for C10: nil field Person of pointer-to-struct type receives
the non-mapping value "x"; the call errors and the field now points at a
freshly zeroed struct. -/
theorem C10_witness :
    Decode ⟨[noopMut]⟩ 1 [("Person", some (.strV "x"))]
        [.mk "Person" "" (.ptr (.strct (.fcons "Name" "" .str false .fnil))) false
          (.ptrV (.strct (.fcons "Name" "" .str false .fnil)) none)]
      = .fail (embedErrMsg "Person")
          [.mk "Person" "" (.ptr (.strct (.fcons "Name" "" .str false .fnil))) false
            (.ptrV (.strct (.fcons "Name" "" .str false .fnil))
              (some (.structV [.mk "Name" "" .str false (.strV "")])))] :=
  C10_ptr_struct_alloc_before_error 0 [noopMut] [("Person", some (.strV "x"))]
    "Person" "" (.fcons "Name" "" .str false .fnil) []
    { name := "Person", value := some (.strV "x"),
      ty := .ptr (.strct (.fcons "Name" "" .str false .fnil)), tag := "", skip := false }
    rfl rfl rfl

/-- C4: the descriptor starts with an empty Name; the SourceMapping is
read at most once per field, never when the pipeline is empty, and
exactly once right after the first step returns normally; when the first
step leaves Name empty the engine falls back to the declared field name,
and the Value fetched is the mapping entry under that resolved name
(left as it was when the key is absent). -/
theorem C4_name_then_single_lookup (muts : List MutationFunc) (frm : Entries)
    (fld : FieldSt) (m : MutationFunc) (rest : List MutationFunc) (fp1 : FieldPart)
    (h : m (initFieldPart fld) = .ok fp1) :
    (initFieldPart fld).name = ""
  ∧ (runPipeline muts frm fld.name (initFieldPart fld)).2 ≤ 1
  ∧ runPipeline [] frm fld.name (initFieldPart fld) = (.ok (initFieldPart fld), 0)
  ∧ runPipeline (m :: rest) frm fld.name (initFieldPart fld)
      = (runRest rest (afterFirstStep frm fld.name fp1), 1)
  ∧ (afterFirstStep frm fld.name fp1).name
      = (if fp1.name = "" then fld.name else fp1.name)
  ∧ (afterFirstStep frm fld.name fp1).value
      = (match lookupEntry frm (if fp1.name = "" then fld.name else fp1.name) with
         | some v => v
         | none => fp1.value) := by
  refine ⟨rfl, ?_, rfl, by simp [runPipeline, h], ?_, ?_⟩
  · cases muts with
    | nil => simp [runPipeline]
    | cons m1 r =>
      cases hm : m1 (initFieldPart fld) <;> simp [runPipeline, hm]
  · by_cases hn : fp1.name = "" <;>
      [cases hl : lookupEntry frm fld.name; cases hl : lookupEntry frm fp1.name] <;>
      simp [afterFirstStep, hn, hl]
  · by_cases hn : fp1.name = "" <;>
      [cases hl : lookupEntry frm fld.name; cases hl : lookupEntry frm fp1.name] <;>
      simp [afterFirstStep, hn, hl]

/-- Witness for C4: field Age, identity first step, mapping holding 18
under Age; the lookup runs once under the fallback name Age. -/
theorem C4_witness :
    (initFieldPart (.mk "Age" "" .int false (.intV 0))).name = ""
  ∧ (runPipeline [noopMut] [("Age", some (.intV 18))] "Age"
      (initFieldPart (.mk "Age" "" .int false (.intV 0)))).2 ≤ 1
  ∧ runPipeline [] [("Age", some (.intV 18))] "Age"
      (initFieldPart (.mk "Age" "" .int false (.intV 0)))
      = (.ok (initFieldPart (.mk "Age" "" .int false (.intV 0))), 0)
  ∧ runPipeline [noopMut] [("Age", some (.intV 18))] "Age"
      (initFieldPart (.mk "Age" "" .int false (.intV 0)))
      = (runRest [] (afterFirstStep [("Age", some (.intV 18))] "Age"
          (initFieldPart (.mk "Age" "" .int false (.intV 0)))), 1)
  ∧ (afterFirstStep [("Age", some (.intV 18))] "Age"
      (initFieldPart (.mk "Age" "" .int false (.intV 0)))).name
      = (if (initFieldPart (.mk "Age" "" .int false (.intV 0))).name = "" then "Age"
         else (initFieldPart (.mk "Age" "" .int false (.intV 0))).name)
  ∧ (afterFirstStep [("Age", some (.intV 18))] "Age"
      (initFieldPart (.mk "Age" "" .int false (.intV 0)))).value
      = (match lookupEntry [("Age", some (.intV 18))]
            (if (initFieldPart (.mk "Age" "" .int false (.intV 0))).name = "" then "Age"
             else (initFieldPart (.mk "Age" "" .int false (.intV 0))).name) with
         | some v => v
         | none => (initFieldPart (.mk "Age" "" .int false (.intV 0))).value) :=
  C4_name_then_single_lookup [noopMut] [("Age", some (.intV 18))]
    (.mk "Age" "" .int false (.intV 0)) noopMut []
    (initFieldPart (.mk "Age" "" .int false (.intV 0))) rfl

/-- Conversion attempt lands exactly on the destination type whenever a
convertible relationship exists. -/
theorem convertAttempt_typeOf (v : GoValue) (dst : GoType)
    (h : convertibleTo v.typeOf dst = true) :
    (convertAttempt v dst).typeOf = dst := by
  have h2 : v.typeOf = dst ∨ (v.typeOf = .int ∧ dst = .str) := by
    simpa [convertibleTo, Bool.or_eq_true, Bool.and_eq_true, decide_eq_true_eq] using h
  simp only [convertAttempt, h, if_true]
  rcases h2 with h2 | ⟨h2, h3⟩
  · cases v <;> cases dst <;> simp_all [convertVal, GoValue.typeOf]
  · cases v <;> simp_all [convertVal, GoValue.typeOf]

/-- C6 amended: on a present, valid resolved value the engine converts
when convertible and assigns the converted value; with no convertible
relationship and differing kinds it fails with the type-mismatch error
naming the field, the source type, and the destination type; but with no
convertible relationship and matching kinds the value is NOT assigned:
the reflective Set faults, and the recover turns that fault into an
ordinary error of the decode call. -/
theorem C6_convert_or_mismatch_or_fault (fieldName : String) (fieldVal : GoValue)
    (fpVal : Option GoValue) (v : GoValue)
    (hres : resolveOnce fpVal = some v) :
    (convertibleTo v.typeOf (fieldElemTy fieldVal) = true →
      scalarStep fieldName fieldVal fpVal
        = .assigned (assignInto (fieldAfterAlloc fieldVal)
            (convertAttempt v (fieldElemTy fieldVal))))
  ∧ (convertibleTo v.typeOf (fieldElemTy fieldVal) = false →
      v.typeOf.kind ≠ (fieldElemTy fieldVal).kind →
      scalarStep fieldName fieldVal fpVal
        = .failS (mismatchMsg fieldName v.typeOf (fieldElemTy fieldVal))
            (fieldAfterAlloc fieldVal))
  ∧ (convertibleTo v.typeOf (fieldElemTy fieldVal) = false →
      v.typeOf.kind = (fieldElemTy fieldVal).kind →
      scalarStep fieldName fieldVal fpVal
        = .panicS (setPanicMsg v.typeOf (fieldElemTy fieldVal))
            (fieldAfterAlloc fieldVal)) := by
  refine ⟨?_, ?_, ?_⟩
  · intro hc
    have ht := convertAttempt_typeOf v (fieldElemTy fieldVal) hc
    simp [scalarStep, hres, ht]
  · intro hc hk
    have hv : convertAttempt v (fieldElemTy fieldVal) = v := by
      simp [convertAttempt, hc]
    simp [scalarStep, hres, hv, hk]
  · intro hc hk
    have hv : convertAttempt v (fieldElemTy fieldVal) = v := by
      simp [convertAttempt, hc]
    have hne : v.typeOf ≠ fieldElemTy fieldVal := by
      intro he
      simp [convertibleTo, he] at hc
    simp [scalarStep, hres, hv, hk, hne]

/-- Witness for C6, the P5-style scenario: field Age of type int, input
value a string: no convertible relationship, kinds differ, the scalar
branch fails with the mismatch error naming Age, string and int. -/
theorem C6_witness :
    scalarStep "Age" (.intV 0) (some (.strV "x"))
      = .failS (mismatchMsg "Age" .str .int) (.intV 0) :=
  (C6_convert_or_mismatch_or_fault "Age" (.intV 0) (some (.strV "x")) (.strV "x")
    rfl).2.1 rfl (by decide)

/-- C7: an embedded aggregate field recurses with exactly the mapping of
the parent call: the nested decode receives `frm` itself, no namespace
prefixing and no sub-mapping extraction, whatever value the pipeline put
into the descriptor. -/
theorem C7_embedded_shares_mapping (n : Nat) (muts : List MutationFunc) (frm : Entries)
    (nm tg : String) (sub rest : List FieldSt) (fp : FieldPart)
    (hp : (runPipeline muts frm nm
            (initFieldPart (.mk nm tg (.strct (declsOf sub)) true (.structV sub)))).1
          = .ok fp)
    (hs : fp.skip = false) :
    decodeFieldsAux (decode muts n) muts frm
        (.mk nm tg (.strct (declsOf sub)) true (.structV sub) :: rest)
      = (match decode muts n frm sub with
         | .ok sub2 =>
            DOut.push (.mk nm tg (.strct (declsOf sub)) true (.structV sub2))
              (decodeFieldsAux (decode muts n) muts frm rest)
         | .fail e sub2 =>
            .fail e (.mk nm tg (.strct (declsOf sub)) true (.structV sub2) :: rest)
         | .panicked e sub2 =>
            .panicked e (.mk nm tg (.strct (declsOf sub)) true (.structV sub2) :: rest)) := by
  cases hd : decode muts n frm sub <;>
    simp [decodeFieldsAux, FieldSt.name, FieldSt.ty, FieldSt.val, FieldSt.embedded,
      FieldSt.withVal, hp, hs, isAggTy, aggPrep, structFieldsOf, aggRebuild, hd]

/-- Witness for C7, the P3 scenario: the top-level key Address populates
the Address field of the embedded sub-record. -/
theorem C7_witness :
    decodeFieldsAux (decode [noopMut] 1) [noopMut] [("Address", some (.strV "Street A"))]
        [.mk "Emb" "" (.strct (declsOf [.mk "Address" "" .str false (.strV "")])) true
          (.structV [.mk "Address" "" .str false (.strV "")])]
      = (match decode [noopMut] 1 [("Address", some (.strV "Street A"))]
            [.mk "Address" "" .str false (.strV "")] with
         | .ok sub2 =>
            DOut.push (.mk "Emb" "" (.strct (declsOf [.mk "Address" "" .str false (.strV "")]))
                true (.structV sub2))
              (decodeFieldsAux (decode [noopMut] 1) [noopMut]
                [("Address", some (.strV "Street A"))] [])
         | .fail e sub2 =>
            .fail e [.mk "Emb" "" (.strct (declsOf [.mk "Address" "" .str false (.strV "")]))
                true (.structV sub2)]
         | .panicked e sub2 =>
            .panicked e [.mk "Emb" ""
                (.strct (declsOf [.mk "Address" "" .str false (.strV "")]))
                true (.structV sub2)])
  ∧ Decode ⟨[noopMut]⟩ 2 [("Address", some (.strV "Street A"))]
        [.mk "Emb" "" (.strct (declsOf [.mk "Address" "" .str false (.strV "")])) true
          (.structV [.mk "Address" "" .str false (.strV "")])]
      = .ok [.mk "Emb" "" (.strct (declsOf [.mk "Address" "" .str false (.strV "")])) true
          (.structV [.mk "Address" "" .str false (.strV "Street A")])] :=
  ⟨C7_embedded_shares_mapping 1 [noopMut] [("Address", some (.strV "Street A"))]
      "Emb" "" [.mk "Address" "" .str false (.strV "")] []
      { name := "Emb", value := none,
        ty := .strct (declsOf [.mk "Address" "" .str false (.strV "")]),
        tag := "", skip := false }
      rfl rfl,
    rfl⟩

/-- C8: the translation of Decode is a pure function of the decoder
pipeline, the mapping and the target state: the source has no package
level mutable state and Decode only reads decoder.mutations, so two
calls of one decoder on equal freshly zeroed targets return identical
outcomes, target state included. -/
theorem C8_deterministic (d : Decoder) (fuel : Nat) (frm : Entries)
    (ds : FieldDecls) (t1 t2 : List FieldSt)
    (h1 : t1 = zeroStruct ds) (h2 : t2 = zeroStruct ds) :
    Decode d fuel frm t1 = Decode d fuel frm t2 := by
  rw [h1, h2]

/-- Witness for C8: two freshly zeroed single-field targets decode
identically. -/
theorem C8_witness :
    Decode ⟨[noopMut]⟩ 1 [("Name", some (.strV "x"))]
        (zeroStruct (.fcons "Name" "" .str false .fnil))
      = Decode ⟨[noopMut]⟩ 1 [("Name", some (.strV "x"))]
        (zeroStruct (.fcons "Name" "" .str false .fnil)) :=
  C8_deterministic ⟨[noopMut]⟩ 1 [("Name", some (.strV "x"))]
    (.fcons "Name" "" .str false .fnil)
    (zeroStruct (.fcons "Name" "" .str false .fnil))
    (zeroStruct (.fcons "Name" "" .str false .fnil)) rfl rfl

/-- With an empty pipeline the lookup of line 70 never runs, so decode
does not depend on the mapping at all. -/
theorem decode_empty_pipeline_indep (n : Nat) :
    ∀ (frm1 frm2 : Entries) (st : List FieldSt),
      decode [] n frm1 st = decode [] n frm2 st := by
  induction n with
  | zero => intro frm1 frm2 st; rfl
  | succ n ih =>
    intro frm1 frm2 st
    simp only [decode]
    congr 1
    induction st with
    | nil => rfl
    | cons fld rest ihr =>
      simp only [decodeFieldsAux, runPipeline, initFieldPart]
      cases hAgg : isAggTy fld.ty with
      | false =>
        simp [hAgg, scalarStep, resolveOnce, ihr]
      | true =>
        cases hEmb : fld.embedded with
        | false => simp [hAgg, hEmb, asMapping]
        | true =>
          have hsub := ih frm1 frm2 (aggPrep fld.val).2
          cases hd : decode [] n frm2 (aggPrep fld.val).2 <;>
            simp [hAgg, hEmb, hsub, hd, ihr]

/-- With an empty pipeline every scalar field is skipped with its value
untouched, so an all-scalar target comes back unchanged. -/
theorem decodeFields_empty_pipeline_scalars (n : Nat) (frm : Entries) :
    ∀ st : List FieldSt, allScalar st = true →
      decodeFieldsAux (decode [] n) [] frm st = .ok st := by
  intro st
  induction st with
  | nil => intro _; rfl
  | cons fld rest ihr =>
    intro h
    rw [allScalar, List.all_cons, Bool.and_eq_true] at h
    obtain ⟨h1, h2⟩ := h
    have hAgg : isAggTy fld.ty = false := by simpa using h1
    have hr := ihr (by simpa [allScalar] using h2)
    simp [decodeFieldsAux, runPipeline, initFieldPart, hAgg, scalarStep, resolveOnce,
      hr, DOut.push]

/-- With an empty pipeline a non-embedded aggregate field has an absent
descriptor value, hence fails the mapping-shape check; embedded
aggregates and scalars ahead of it cannot mask the error. -/
theorem decodeFields_empty_pipeline_agg_fails (n : Nat) (frm : Entries) :
    ∀ st : List FieldSt, hasNonEmbAgg st = true →
      ∃ e st2, decodeFieldsAux (decode [] n) [] frm st = .fail e st2 := by
  intro st
  induction st with
  | nil => intro h; simp [hasNonEmbAgg] at h
  | cons fld rest ihr =>
    intro h
    rw [hasNonEmbAgg, List.any_cons] at h
    cases hAgg : isAggTy fld.ty with
    | false =>
      have hr : hasNonEmbAgg rest = true := by
        rw [hasNonEmbAgg]
        simpa [hAgg] using h
      obtain ⟨e, st2, he⟩ := ihr hr
      exact ⟨e, fld :: st2,
        by simp [decodeFieldsAux, runPipeline, initFieldPart, hAgg, scalarStep,
          resolveOnce, he, DOut.push]⟩
    | true =>
      cases hEmb : fld.embedded with
      | false =>
        exact ⟨embedErrMsg "", fld.withVal (aggPrep fld.val).1 :: rest,
          by simp [decodeFieldsAux, runPipeline, initFieldPart, hAgg, hEmb, asMapping]⟩
      | true =>
        have hr : hasNonEmbAgg rest = true := by
          rw [hasNonEmbAgg]
          simpa [hAgg, hEmb] using h
        cases hd : decode [] n frm (aggPrep fld.val).2 with
        | ok sub =>
          obtain ⟨e, st2, he⟩ := ihr hr
          exact ⟨e, fld.withVal (aggRebuild (aggPrep fld.val).1 sub) :: st2,
            by simp [decodeFieldsAux, runPipeline, initFieldPart, hAgg, hEmb, hd, he,
              DOut.push]⟩
        | fail e sub =>
          exact ⟨e, fld.withVal (aggRebuild (aggPrep fld.val).1 sub) :: rest,
            by simp [decodeFieldsAux, runPipeline, initFieldPart, hAgg, hEmb, hd]⟩
        | panicked e sub =>
          have hnp := decode_not_panicked [] n frm (aggPrep fld.val).2
          rw [hd] at hnp
          simp [DOut.isPanicked] at hnp

/-- C9: with an empty mutation pipeline Decode never reads the
SourceMapping (the result is the same for any two mappings), leaves
every scalar field of an all-scalar target unchanged with success, and
returns an error whenever the target has a non-embedded aggregate field,
whose descriptor value is necessarily absent and hence not a mapping. -/
theorem C9_empty_pipeline_behaviour :
    (∀ (fuel : Nat) (frm1 frm2 : Entries) (st : List FieldSt),
        Decode ⟨[]⟩ fuel frm1 st = Decode ⟨[]⟩ fuel frm2 st)
  ∧ (∀ (fuel : Nat) (frm : Entries) (st : List FieldSt), allScalar st = true →
        Decode ⟨[]⟩ (fuel + 1) frm st = .ok st)
  ∧ (∀ (fuel : Nat) (frm : Entries) (st : List FieldSt), hasNonEmbAgg st = true →
        ∃ e st2, Decode ⟨[]⟩ (fuel + 1) frm st = .fail e st2) := by
  refine ⟨?_, ?_, ?_⟩
  · intro fuel frm1 frm2 st
    exact decode_empty_pipeline_indep fuel frm1 frm2 st
  · intro fuel frm st h
    have := decodeFields_empty_pipeline_scalars fuel frm st h
    simp [Decode, decode, this, recoverWrap]
  · intro fuel frm st h
    obtain ⟨e, st2, he⟩ := decodeFields_empty_pipeline_agg_fails fuel frm st h
    exact ⟨e, st2, by simp [Decode, decode, he, recoverWrap]⟩

/-- Witness for C9: a scalar target is untouched whatever the mapping
holds, and a target with a non-embedded struct field errors. -/
theorem C9_witness :
    Decode ⟨[]⟩ 1 [("Name", some (.strV "x"))] [.mk "Name" "" .str false (.strV "preset")]
      = Decode ⟨[]⟩ 1 [] [.mk "Name" "" .str false (.strV "preset")]
  ∧ Decode ⟨[]⟩ 1 [("Name", some (.strV "x"))] [.mk "Name" "" .str false (.strV "preset")]
      = .ok [.mk "Name" "" .str false (.strV "preset")]
  ∧ ∃ e st2,
      Decode ⟨[]⟩ 1 [("A", some (.strV "x"))]
        [.mk "A" "" (.strct .fnil) false (.structV [])] = .fail e st2 :=
  ⟨C9_empty_pipeline_behaviour.1 1 [("Name", some (.strV "x"))] []
      [.mk "Name" "" .str false (.strV "preset")],
    C9_empty_pipeline_behaviour.2.1 0 [("Name", some (.strV "x"))]
      [.mk "Name" "" .str false (.strV "preset")] rfl,
    C9_empty_pipeline_behaviour.2.2 0 [("A", some (.strV "x"))]
      [.mk "A" "" (.strct .fnil) false (.structV [])] rfl⟩

end Structmap
